import Mathlib

/-!
Shallow embedding of the modelscan traversal-and-dispatch engine
(from `modelscan/modelscan.py`) and of the `Model` resource
(from `modelscan/model.py`).

Paths are modelled as strings over a POSIX-like filesystem given as a
finite association list mapping absolute path strings to nodes.
External collaborators that are not part of the two given source files
(the `Issues` container, the `Error` classes, `_is_zipfile`,
`zipfile.ZipFile`, dynamic import) are modelled from the spec where the
doc comment says so.
-/

/- ## Path strings (the `pathlib` operations the source uses) -/

/-- Splits a character list on the slash character. -/
def splitSlash : List Char → List (List Char)
  | [] => [[]]
  | c :: rest =>
    match splitSlash rest with
    | [] => [[]]
    | g :: gs => if c = '/' then [] :: g :: gs else (c :: g) :: gs

/-- True when the string starts with a slash (an absolute POSIX path). -/
def isAbs (p : String) : Bool :=
  match p.data with
  | [] => false
  | c :: _ => c = '/'

/-- The non-empty, non-dot components of a path string, keeping `..`
(mirrors the component list of a `pathlib` pure path, minus the root). -/
def parts (p : String) : List String :=
  ((splitSlash p.data).map (fun l => String.mk l)).filter
    (fun s => !(s == "") && !(s == "."))

def joinParts : List String → String
  | [] => ""
  | [x] => x
  | x :: xs => x ++ "/" ++ joinParts xs

/-- String form of a path from its root flag and components (mirrors
`str` of a `pathlib` path; the empty relative path prints as "."). -/
def pathStr (abs : Bool) (ps : List String) : String :=
  if abs then "/" ++ joinParts ps
  else if ps.isEmpty then "." else joinParts ps

/-- `Path.absolute()`: prefix the working directory, without normalising. -/
def pyAbsolute (cwd p : String) : String :=
  if isAbs p then p else cwd ++ "/" ++ p

/-- The string `pathlib` prints for a parsed path (drops empty and `.`
components, keeps `..`). -/
def cleanPath (p : String) : String :=
  pathStr (isAbs p) (parts p)

def resolveDotsAux : List String → List String → List String
  | acc, [] => acc.reverse
  | acc, c :: rest =>
    if c = ".." then resolveDotsAux acc.tail rest
    else resolveDotsAux (c :: acc) rest

/-- Folds `..` components away, staying at the root when it underflows. -/
def resolveDots (l : List String) : List String := resolveDotsAux [] l

/-- Canonical absolute form of a path string. -/
def normAbs (p : String) : String := pathStr true (resolveDots (parts p))

/-- `Path.resolve()` in a symlink-free model: absolutise, then fold `..`. -/
def pyResolve (cwd p : String) : String := normAbs (pyAbsolute cwd p)

def listStarts : List String → List String → Bool
  | [], _ => true
  | _ :: _, [] => false
  | a :: as, b :: bs => a == b && listStarts as bs

/-- `Path.relative_to`: `none` models the `ValueError` raise. -/
def pyRelativeTo (target base : String) : Option String :=
  if isAbs target == isAbs base && listStarts (parts base) (parts target) then
    some (pathStr false ((parts target).drop (parts base).length))
  else none

def lastDotAux : List Char → Nat → Option Nat → Option Nat
  | [], _, best => best
  | c :: rest, i, best => lastDotAux rest (i + 1) (if c = '.' then some i else best)

/-- The `suffix` property of a `pathlib` pure path: the final dot-suffix of
the last component, empty for a leading-dot-only or dot-free name. -/
def pySuffix (p : String) : String :=
  let name := (parts p).getLastD ""
  match lastDotAux name.data 0 none with
  | none => ""
  | some i =>
    if 0 < i && i + 1 < name.data.length then String.mk (name.data.drop i) else ""

/-- Parent of an absolute path string (the `parent` property). -/
def parentPath (p : String) : String := pathStr true (parts p).dropLast

/-- A well-formed absolute path string: rooted, free of `..`, and fixed by
re-printing its components (so also free of `.`, empty components and
trailing slashes). -/
def isCleanAbs (p : String) : Bool :=
  isAbs p && !(parts p).contains ".." && (pathStr true (parts p) == p)

/- ## Data model -/

inductive Severity
  | LOW
  | MEDIUM
  | HIGH
  | CRITICAL
deriving DecidableEq

def severityName : Severity → String
  | .LOW => "LOW"
  | .MEDIUM => "MEDIUM"
  | .HIGH => "HIGH"
  | .CRITICAL => "CRITICAL"

/-- The ordered severity enumeration iterated by `_generate_results`. -/
def severityList : List Severity := [.LOW, .MEDIUM, .HIGH, .CRITICAL]

/-- Modelled from the spec: an issue carries a severity level and a source
locator (the `Issue` type of `modelscan.issues` is not among the given
sources; its free-form detail payload is consumed opaquely). -/
structure Issue where
  severity : Severity
  source : String
deriving DecidableEq

/-- Modelled from the spec: an error carries an optional message and an
optional source locator; `ModelScanError` additionally stores the scanner
name it is tagged with (the `Error` classes of `modelscan.error` are not
among the given sources). -/
structure Err where
  scanner : String
  message : Option String
  source : Option String
deriving DecidableEq

/-- `ModelScanError(scanner, message)`: a message-bearing error with no
source attribute. -/
def ModelScanError (scanner msg : String) : Err := ⟨scanner, some msg, none⟩

/-- The result bundle a claiming scanner returns. -/
structure ScanResult where
  issues : List Issue
  errors : List Err

/-- One archive member: its name and whether its bytes sniff as a zip. -/
structure EntryData where
  name : String
  sniffsZip : Bool
deriving DecidableEq

/-- What the filesystem knows about a regular file: whether its content
sniffs as a zip, and the member list `zipfile.ZipFile` would yield
(`none` models `BadZipFile` on open). -/
structure FileData where
  sniffsZip : Bool
  zipEntries : Option (List EntryData)
deriving DecidableEq

inductive FSNode
  | dir
  | file (d : FileData)
deriving DecidableEq

def FSNode.isDir : FSNode → Bool
  | .dir => true
  | .file _ => false

/-- A snapshot of the filesystem: absolute path strings mapped to nodes,
listed in the order directory iteration yields them. -/
abbrev FS := List (String × FSNode)

/-- A registered scanner capability: `scan(source, data)` returns `none`
when it does not claim the target. -/
structure Scanner where
  scan : String → Option EntryData → Option ScanResult

/-- One entry of the `scanners` table of the settings mapping; `none`
models an absent key. -/
structure ScannerSetting where
  enabled : Option Bool
  supported_extensions : Option (List String)

/-- The part of the settings mapping the given sources read. -/
structure Settings where
  scanners : List (String × ScannerSetting)
  supported_zip_extensions : List String

/-- The data `_scan_path` and friends consume: the instantiated scanner
list and the configured archive extensions. -/
structure Config where
  scanners : List Scanner
  zipExts : List String

/-- The per-invocation session state (`_issues`, `_errors`, `_skipped`,
`_scanned`). -/
structure ScanState where
  issues : List Issue
  errors : List Err
  skipped : List String
  scanned : List String
deriving DecidableEq

/- ## Filesystem queries -/

def fsFind (fs : FS) (p : String) : Option FSNode :=
  (fs.find? (fun kv => kv.1 == normAbs p)).map (fun kv => kv.2)

def fsIsFile (fs : FS) (p : String) : Bool :=
  match fsFind fs p with
  | some (.file _) => true
  | _ => false

/-- Modelled from the spec: `_is_zipfile` (from `modelscan.tools.utils`,
which is not among the given sources) content-sniffs a path for the zip
magic; a directory or missing path does not sniff as a zip. -/
def is_zipfile (fs : FS) (p : String) : Bool :=
  match fsFind fs p with
  | some (.file d) => d.sniffsZip
  | _ => false

/-- Modelled from the spec: opening a path with `zipfile.ZipFile`; `none`
models the open failing (`BadZipFile`), and a directory or missing path
also fails to open. -/
def zipOpenFS (fs : FS) (p : String) : Option (List EntryData) :=
  match fsFind fs p with
  | some (.file d) => d.zipEntries
  | _ => none

def charsStart : List Char → List Char → Bool
  | [], _ => true
  | _ :: _, [] => false
  | a :: as, b :: bs => a == b && charsStart as bs

def strStarts (pre s : String) : Bool := charsStart pre.data s.data

/-- The non-directory descendants of a directory, in filesystem order
(`directory_path.rglob("*")` filtered by `not path.is_dir()`). -/
def rglobFiles (fs : FS) (dirPath : String) : List String :=
  fs.filterMap (fun kv =>
    match kv.2 with
    | .file _ => if strStarts (dirPath ++ "/") kv.1 then some kv.1 else none
    | .dir => none)

/- ## The ModelScan instance state -/

/-- The fields of a `ModelScan` instance (`__init__`): persistent settings,
loaded scanners and initialisation errors, plus the per-invocation
session output fields. -/
structure ModelScan where
  settings : Settings
  scanners_to_run : List Scanner
  init_errors : List Err
  issues : List Issue
  errors : List Err
  skipped : List String
  scanned : List String
  input_path : String

namespace ModelScan

/-- The results of the scanners that claim a source, in registry order. -/
def claimResults (scanners : List Scanner) (src : String) (d : Option EntryData) :
    List ScanResult :=
  scanners.filterMap (fun sc => sc.scan src d)

/-- The scanner loop of `ModelScan._scan_source`. -/
def scan_sourceGo (src : String) (d : Option EntryData) :
    List Scanner → Bool × ScanState → Bool × ScanState
  | [], acc => acc
  | sc :: rest, (b, st) =>
    match sc.scan src d with
    | none => scan_sourceGo src d rest (b, st)
    | some r =>
      scan_sourceGo src d rest
        (true,
          { st with
              scanned := st.scanned ++ [src]
              issues := st.issues ++ r.issues
              errors := st.errors ++ r.errors })

/-- `ModelScan._scan_source`: offer one visit target to every scanner. -/
def scan_source (cfg : Config) (src : String) (d : Option EntryData) (st : ScanState) :
    Bool × ScanState :=
  scan_sourceGo src d cfg.scanners (false, st)

/-- The composite locator `f"{source}:{file_name}"` of an archive entry. -/
def entryLoc (source : String) (e : EntryData) : String := source ++ ":" ++ e.name

def nestedZipMsg (loc : String) : String :=
  loc ++ " is a zip file. ModelScan does not support nested zip files."

/-- The member loop of `ModelScan._scan_zip`; an unclaimed entry that
sniffs as a zip gets the nested-zip error, and every unclaimed entry is
skipped under its composite locator. -/
def scan_zipGo (cfg : Config) (source : String) : List EntryData → ScanState → ScanState
  | [], st => st
  | e :: rest, st =>
    let loc := entryLoc source e
    let r := scan_source cfg loc (some e) st
    let st2 :=
      if r.1 then r.2
      else
        let st1 :=
          if e.sniffsZip then
            { r.2 with errors := r.2.errors ++ [ModelScanError "ModelScan" (nestedZipMsg loc)] }
          else r.2
        { st1 with skipped := st1.skipped ++ [loc] }
    scan_zipGo cfg source rest st2

/-- `ModelScan._scan_zip` (its `data` parameter is `None` at the sole call
site, so the archive is opened from its path). -/
def scan_zip (cfg : Config) (fs : FS) (source : String) (st : ScanState) : ScanState :=
  match zipOpenFS fs source with
  | some entries => scan_zipGo cfg source entries st
  | none => { st with skipped := st.skipped ++ [source] }

/-- `ModelScan._scan_directory`, parametric in the recursive visit; the
`rglob` descendants offered are exactly the non-directories. -/
def scan_directory (visit : String → ScanState → ScanState) (fs : FS) (dirPath : String)
    (st : ScanState) : ScanState :=
  (rglobFiles fs dirPath).foldl (fun s q => visit q s) st

/-- `ModelScan._scan_path`.  The `Nat` argument is recursion fuel for the
directory recursion; descendants offered for recursion are never
directories, so any fuel of at least two is exact. -/
def scan_path (cfg : Config) (fs : FS) : Nat → String → ScanState → ScanState
  | 0, _, st => st
  | fuel + 1, path, st =>
    match fsFind fs path with
    | none =>
      { st with
          errors := st.errors ++ [ModelScanError "ModelScan" ("Path " ++ path ++ " is not valid")]
          skipped := st.skipped ++ [path] }
    | some node =>
      let r := scan_source cfg path none st
      if !r.1 && node.isDir then
        scan_directory (fun q s => scan_path cfg fs fuel q s) fs path r.2
      else if is_zipfile fs path || cfg.zipExts.contains (pySuffix path) then
        scan_zip cfg fs path r.2
      else if !r.1 then { r.2 with skipped := r.2.skipped ++ [path] }
      else r.2

/-- `ModelScan._load_scanners`.  Dynamic import is modelled from the spec
as a resolution function that yields either the scanner capability or the
exception text; enabled entries whose resolution fails are recorded as
initialisation errors tagged with the scanner identifier, and the loop
continues with the remaining entries. -/
def load_scanners (resolve : String → Except String Scanner) :
    List (String × ScannerSetting) → List Scanner × List Err
  | [] => ([], [])
  | (p, cfg) :: rest =>
    let r := load_scanners resolve rest
    if cfg.enabled = some true then
      match resolve p with
      | .ok sc => (sc :: r.1, r.2)
      | .error e =>
        (r.1, ModelScanError p ("Error importing scanner " ++ p ++ ": " ++ e) :: r.2)
    else r

/-- `ModelScan.__init__`: empty session state, then `_load_scanners`. -/
def maker (resolve : String → Except String Scanner) (settings : Settings) : ModelScan :=
  let ld := load_scanners resolve settings.scanners
  ⟨settings, ld.1, ld.2, [], [], [], [], ""⟩

end ModelScan

/-- One entry of the report's flat error list: an optional description and
an optional relativized source (empty dicts are dropped). -/
structure ErrorEntry where
  description : Option String
  source : Option String
deriving DecidableEq

/-- The report `_generate_results` builds.  The version and timestamp
fields are omitted: they come from the package metadata and the wall
clock, outside the embedded code. -/
structure Report where
  total_issues_by_severity : List (String × Nat)
  total_issues : Nat
  input_path : String
  absolute_path : String
  total_skipped : Nat
  skipped_files : List String
  total_scanned : Nat
  scanned_files : List String
  issues : List Issue
  errors : List ErrorEntry
deriving DecidableEq

/-- Maps a fallible function over a list, failing as soon as one element
fails (the loop-raises-out-of-the-method pattern). -/
def mapOpt (f : α → Option β) : List α → Option (List β)
  | [] => some []
  | a :: l =>
    match f a with
    | none => none
    | some b => (mapOpt f l).map (fun bs => b :: bs)

namespace ModelScan

/-- The error-rendering loop of `_generate_results`: a description when the
message is present, a relativized source when the error has one (`none`
models the `ValueError` a failing `relative_to` raises), and errors with
neither are dropped. -/
def renderErrors (root : String) : List Err → Option (List ErrorEntry)
  | [] => some []
  | e :: rest =>
    match e.source with
    | some s =>
      match pyRelativeTo s root with
      | none => none
      | some rs => (renderErrors root rest).map (fun tl => ⟨e.message, some rs⟩ :: tl)
    | none =>
      if e.message.isSome then
        (renderErrors root rest).map (fun tl => ⟨e.message, none⟩ :: tl)
      else renderErrors root rest

/-- `ModelScan._generate_results`: compute the report root, group issue
counts by severity, and relativize every reported path against the root;
`none` models a `ValueError` raised by a failing `relative_to`. -/
def generate_results (fs : FS) (cwd : String) (ms : ModelScan) : Option Report := do
  let resolvedInput := pyResolve cwd ms.input_path
  let absolutePath :=
    if fsIsFile fs resolvedInput then parentPath resolvedInput else resolvedInput
  let skippedFiles ← mapOpt (fun f => pyRelativeTo f absolutePath) ms.skipped
  let scannedFiles ← mapOpt (fun f => pyRelativeTo f absolutePath) ms.scanned
  let rIssues ← mapOpt
    (fun i => (pyRelativeTo i.source absolutePath).map (fun rs => { i with source := rs }))
    ms.issues
  let rErrors ← renderErrors absolutePath ms.errors
  some
    { total_issues_by_severity :=
        severityList.map
          (fun s => (severityName s, (ms.issues.filter (fun i => decide (i.severity = s))).length))
      total_issues := ms.issues.length
      input_path := ms.input_path
      absolute_path := absolutePath
      total_skipped := ms.skipped.length
      skipped_files := skippedFiles
      total_scanned := ms.scanned.length
      scanned_files := scannedFiles
      issues := rIssues
      errors := rErrors }

def msConfig (ms : ModelScan) : Config :=
  ⟨ms.scanners_to_run, ms.settings.supported_zip_extensions⟩

/-- `ModelScan.scan`: reset the session state, re-seed the error list from
the initialisation errors, resolve the root, traverse, then build the
report. -/
def scan (fs : FS) (cwd : String) (ms : ModelScan) (path : String) :
    ModelScan × Option Report :=
  let ms0 : ModelScan :=
    { ms with
        issues := [], errors := ms.init_errors, skipped := [], scanned := []
        input_path := path }
  let pathlibPath := if path == "." then cwd else cleanPath (pyAbsolute cwd path)
  let st := scan_path (msConfig ms0) fs (fs.length + 2) pathlibPath
    ⟨ms0.issues, ms0.errors, ms0.skipped, ms0.scanned⟩
  let ms1 : ModelScan :=
    { ms0 with issues := st.issues, errors := st.errors, skipped := st.skipped
               scanned := st.scanned }
  (ms1, generate_results fs cwd ms1)

/-- `ModelScan.is_compatible`: a pure check of the path's suffix against
the archive extensions and every configured scanner entry that declares
supported extensions. -/
def is_compatible (s : Settings) (path : String) : Bool :=
  if s.supported_zip_extensions.contains (pySuffix path) then true
  else
    s.scanners.any (fun pc =>
      match pc.2.supported_extensions with
      | some exts => exts.contains (pySuffix path)
      | none => false)

end ModelScan

/- ## The Model resource (`modelscan/model.py`) -/

structure Handle where
  id : Nat
deriving DecidableEq

/-- The runtime's open-file table: a fresh-id counter and the ids whose
underlying handle has been closed. -/
structure FileTable where
  nextId : Nat
  closedIds : List Nat
deriving DecidableEq

def FileTable.openNew (t : FileTable) : Handle × FileTable :=
  (⟨t.nextId⟩, { t with nextId := t.nextId + 1 })

def FileTable.closeH (t : FileTable) (h : Handle) : FileTable :=
  { t with closedIds := t.closedIds ++ [h.id] }

def FileTable.isClosed (t : FileTable) (h : Handle) : Bool :=
  t.closedIds.contains h.id

/-- `ModelDataEmpty` and the `ValueError` the runtime raises when a closed
handle is asked to seek. -/
inductive StreamErr
  | modelDataEmpty
  | seekClosedFile
deriving DecidableEq

structure Model where
  source : String
  stream : Option Handle
  source_file_used : Bool
  context : List (String × List String)
deriving DecidableEq

/-- `Model.__init__`. -/
def Model.maker (source : String) (stream : Option Handle) : Model :=
  ⟨source, stream, false, [("formats", [])]⟩

def assocSet : List (String × List String) → String → List String →
    List (String × List String)
  | [], k, v => [(k, v)]
  | (k0, v0) :: rest, k, v =>
    if k0 == k then (k, v) :: rest else (k0, v0) :: assocSet rest k v

def Model.set_context (m : Model) (k : String) (v : List String) : Model :=
  { m with context := assocSet m.context k v }

def Model.get_context (m : Model) (k : String) : Option (List String) :=
  m.context.lookup k

def Model.get_source (m : Model) : String := m.source

/-- `Model.open`: a no-op when a stream is already attached; otherwise
opens the source path (a fresh handle) and marks ownership. -/
def Model.openModel (m : Model) (t : FileTable) : Model × FileTable :=
  match m.stream with
  | some _ => (m, t)
  | none =>
    let ht := t.openNew
    ({ m with stream := some ht.1, source_file_used := true }, ht.2)

/-- `Model.close`: closes the underlying handle only when this `Model`
opened it; assigns no field of the `Model` itself. -/
def Model.closeModel (m : Model) (t : FileTable) : Model × FileTable :=
  match m.stream with
  | some h => if m.source_file_used then (m, t.closeH h) else (m, t)
  | none => (m, t)

/-- `Model.get_stream`: raises `ModelDataEmpty` when no stream is attached;
otherwise `seek(offset)` and return the handle, where seeking a closed
handle fails with the runtime's closed-file error. -/
def Model.get_stream (m : Model) (t : FileTable) (offset : Nat) : Except StreamErr Handle :=
  match m.stream with
  | none => .error .modelDataEmpty
  | some h => if t.isClosed h then .error .seekClosedFile else .ok h

/-- `Model.__enter__`. -/
def Model.enterModel (m : Model) (t : FileTable) : Model × FileTable := m.openModel t

/-- `Model.__exit__`. -/
def Model.exitModel (m : Model) (t : FileTable) : Model × FileTable := m.closeModel t

/- ## Derived definitions used to characterise the engine -/

namespace ModelScan

/-- The scanner results claiming one archive member. -/
def entryClaims (cfg : Config) (source : String) (e : EntryData) : List ScanResult :=
  claimResults cfg.scanners (entryLoc source e) (some e)

def zipIssuesDelta (cfg : Config) (source : String) (l : List EntryData) : List Issue :=
  (l.map (fun e => ((entryClaims cfg source e).map ScanResult.issues).flatten)).flatten

def zipErrsDelta (cfg : Config) (source : String) (l : List EntryData) : List Err :=
  (l.map (fun e =>
    ((entryClaims cfg source e).map ScanResult.errors).flatten ++
      (if (entryClaims cfg source e).isEmpty && e.sniffsZip then
        [ModelScanError "ModelScan" (nestedZipMsg (entryLoc source e))]
      else []))).flatten

def zipSkippedDelta (cfg : Config) (source : String) (l : List EntryData) : List String :=
  (l.filter (fun e => (entryClaims cfg source e).isEmpty)).map (entryLoc source)

def zipScannedDelta (cfg : Config) (source : String) (l : List EntryData) : List String :=
  (l.map (fun e => (entryClaims cfg source e).map (fun _ => entryLoc source e))).flatten

/-- The scanners an enabled, resolvable configuration entry contributes. -/
def loadedScanners (resolve : String → Except String Scanner)
    (l : List (String × ScannerSetting)) : List Scanner :=
  l.filterMap (fun pc =>
    if pc.2.enabled = some true then (resolve pc.1).toOption else none)

/-- The initialisation errors failing enabled entries contribute. -/
def loadErrors (resolve : String → Except String Scanner)
    (l : List (String × ScannerSetting)) : List Err :=
  l.filterMap (fun pc =>
    if pc.2.enabled = some true then
      match resolve pc.1 with
      | .ok _ => none
      | .error e =>
        some (ModelScanError pc.1 ("Error importing scanner " ++ pc.1 ++ ": " ++ e))
    else none)

end ModelScan

/-- Modelled from the claim's words, for comparison against the source's
`is_compatible`: a compatibility probe that consults the archive-extension
set and only the extensions of enabled scanner entries. -/
def is_compatible_specVersion (s : Settings) (path : String) : Bool :=
  s.supported_zip_extensions.contains (pySuffix path) ||
    s.scanners.any (fun pc =>
      decide (pc.2.enabled = some true) &&
        match pc.2.supported_extensions with
        | some exts => exts.contains (pySuffix path)
        | none => false)

/- ## Concrete instances used by witnesses and counterexamples -/

/-- A zip-sniffing file that a scanner also claims directly. -/
def c1_fs : FS := [("/w/m.zip", .file ⟨true, some [⟨"inner.bin", false⟩]⟩)]

def c1_scanner : Scanner :=
  ⟨fun src _ => if src == "/w/m.zip" then some ⟨[], []⟩ else none⟩

def c1_cfg : Config := ⟨[c1_scanner], [".zip"]⟩

/-- A directory with one plain file claimed by two scanners. -/
def c2_fs : FS := [("/d", .dir), ("/d/f.bin", .file ⟨false, none⟩)]

def c2_scanner : Scanner :=
  ⟨fun src _ => if src == "/d/f.bin" then some ⟨[], []⟩ else none⟩

def c2_ms : ModelScan := ⟨⟨[], []⟩, [c2_scanner, c2_scanner], [], [], [], [], [], ""⟩

/-- An engine instance with no scanners and no initialisation errors. -/
def c3_ms : ModelScan := ⟨⟨[], []⟩, [], [], [], [], [], [], ""⟩

/-- An archive with a claimed member and an unclaimed nested-zip member. -/
def c5_fs : FS :=
  [("/w/a.zip", .file ⟨true, some [⟨"good.bin", false⟩, ⟨"nested.zip", true⟩]⟩)]

def c5_scanner : Scanner :=
  ⟨fun src _ => if src == "/w/a.zip:good.bin" then some ⟨[], []⟩ else none⟩

def c5_cfg : Config := ⟨[c5_scanner], [".zip"]⟩

/-- A configuration whose only scanner entry is disabled yet declares a
supported extension. -/
def c6_settings : Settings := ⟨[("m.X", ⟨some false, some [".pkl"]⟩)], []⟩

def c7_goodScanner : Scanner := ⟨fun _ _ => none⟩

def c7_resolve : String → Except String Scanner :=
  fun p => if p == "m.good.G" then .ok c7_goodScanner else .error "boom"

def c7_settings : Settings :=
  ⟨[("m.good.G", ⟨some true, none⟩), ("m.bad.B", ⟨some true, none⟩)], []⟩

/-- An engine instance carrying one saved initialisation error. -/
def c9_ms : ModelScan :=
  ⟨⟨[], []⟩, [], [ModelScanError "m.bad.B" "Error importing scanner m.bad.B: boom"],
    [], [], [], [], ""⟩

/- ## Characterisation lemmas for the dispatch loop -/

namespace ModelScan

theorem scan_sourceGo_spec (src : String) (d : Option EntryData) (l : List Scanner) :
    ∀ (b : Bool) (st : ScanState),
      scan_sourceGo src d l (b, st) =
        (b || !(claimResults l src d).isEmpty,
          ⟨st.issues ++ ((claimResults l src d).map ScanResult.issues).flatten,
           st.errors ++ ((claimResults l src d).map ScanResult.errors).flatten,
           st.skipped,
           st.scanned ++ (claimResults l src d).map (fun _ => src)⟩) := by
  induction l with
  | nil => intro b st; simp [scan_sourceGo, claimResults]
  | cons sc rest ih =>
    intro b st
    cases hsc : sc.scan src d with
    | none =>
      simp only [scan_sourceGo, hsc]
      rw [ih]
      simp [claimResults, List.filterMap_cons, hsc]
    | some r =>
      simp only [scan_sourceGo, hsc]
      rw [ih]
      simp [claimResults, List.filterMap_cons, hsc, List.append_assoc]

theorem scan_source_spec (cfg : Config) (src : String) (d : Option EntryData) (st : ScanState) :
    scan_source cfg src d st =
      (!(claimResults cfg.scanners src d).isEmpty,
        ⟨st.issues ++ ((claimResults cfg.scanners src d).map ScanResult.issues).flatten,
         st.errors ++ ((claimResults cfg.scanners src d).map ScanResult.errors).flatten,
         st.skipped,
         st.scanned ++ (claimResults cfg.scanners src d).map (fun _ => src)⟩) := by
  simp [scan_source, scan_sourceGo_spec]

theorem scan_source_fst_iff (cfg : Config) (src : String) (d : Option EntryData)
    (st : ScanState) :
    (scan_source cfg src d st).1 = true ↔ ∃ sc ∈ cfg.scanners, (sc.scan src d).isSome := by
  rw [scan_source_spec]
  simp [claimResults, List.filterMap_eq_nil_iff, Option.isSome_iff_ne_none]

theorem scan_zipGo_spec (cfg : Config) (source : String) (l : List EntryData) :
    ∀ st : ScanState,
      scan_zipGo cfg source l st =
        ⟨st.issues ++ zipIssuesDelta cfg source l,
         st.errors ++ zipErrsDelta cfg source l,
         st.skipped ++ zipSkippedDelta cfg source l,
         st.scanned ++ zipScannedDelta cfg source l⟩ := by
  induction l with
  | nil =>
    intro st
    simp [scan_zipGo, zipIssuesDelta, zipErrsDelta, zipSkippedDelta, zipScannedDelta]
  | cons e rest ih =>
    intro st
    simp only [scan_zipGo, scan_source_spec]
    rw [ih]
    by_cases hc : (claimResults cfg.scanners (entryLoc source e) (some e)).isEmpty
    · cases hz : e.sniffsZip with
      | true =>
        simp [hc, hz, zipIssuesDelta, zipErrsDelta, zipSkippedDelta, zipScannedDelta,
          entryClaims, List.isEmpty_iff.mp hc, List.append_assoc]
      | false =>
        simp [hc, hz, zipIssuesDelta, zipErrsDelta, zipSkippedDelta, zipScannedDelta,
          entryClaims, List.isEmpty_iff.mp hc, List.append_assoc]
    · have hc' : (claimResults cfg.scanners (entryLoc source e) (some e)).isEmpty = false :=
        Bool.not_eq_true _ ▸ (by simpa using hc)
      simp [hc', zipIssuesDelta, zipErrsDelta, zipSkippedDelta, zipScannedDelta,
        entryClaims, List.append_assoc]

theorem scan_zip_of_open (cfg : Config) (fs : FS) (source : String) (st : ScanState)
    (entries : List EntryData) (h : zipOpenFS fs source = some entries) :
    scan_zip cfg fs source st =
      ⟨st.issues ++ zipIssuesDelta cfg source entries,
       st.errors ++ zipErrsDelta cfg source entries,
       st.skipped ++ zipSkippedDelta cfg source entries,
       st.scanned ++ zipScannedDelta cfg source entries⟩ := by
  simp [scan_zip, h, scan_zipGo_spec]

theorem scan_zip_of_bad (cfg : Config) (fs : FS) (source : String) (st : ScanState)
    (h : zipOpenFS fs source = none) :
    scan_zip cfg fs source st = { st with skipped := st.skipped ++ [source] } := by
  simp [scan_zip, h]

theorem load_scanners_eq (resolve : String → Except String Scanner)
    (l : List (String × ScannerSetting)) :
    load_scanners resolve l = (loadedScanners resolve l, loadErrors resolve l) := by
  induction l with
  | nil => simp [load_scanners, loadedScanners, loadErrors]
  | cons pc rest ih =>
    obtain ⟨p, cfg⟩ := pc
    by_cases he : cfg.enabled = some true
    · cases hr : resolve p with
      | ok sc =>
        simp [load_scanners, he, hr, ih, loadedScanners, loadErrors, List.filterMap_cons,
          Except.toOption]
      | error e =>
        simp [load_scanners, he, hr, ih, loadedScanners, loadErrors, List.filterMap_cons,
          Except.toOption]
    · simp [load_scanners, he, ih, loadedScanners, loadErrors, List.filterMap_cons]

theorem scan_path_missing (cfg : Config) (fs : FS) (fuel : Nat) (path : String)
    (st : ScanState) (h : fsFind fs path = none) :
    scan_path cfg fs (fuel + 1) path st =
      { st with
          errors := st.errors ++ [ModelScanError "ModelScan" ("Path " ++ path ++ " is not valid")]
          skipped := st.skipped ++ [path] } := by
  simp [scan_path, h]

theorem scan_path_file (cfg : Config) (fs : FS) (fuel : Nat) (path : String)
    (st : ScanState) (d : FileData) (h : fsFind fs path = some (.file d)) :
    scan_path cfg fs (fuel + 1) path st =
      (if is_zipfile fs path || cfg.zipExts.contains (pySuffix path) then
        scan_zip cfg fs path (scan_source cfg path none st).2
      else if !(scan_source cfg path none st).1 then
        { (scan_source cfg path none st).2 with
            skipped := (scan_source cfg path none st).2.skipped ++ [path] }
      else (scan_source cfg path none st).2) := by
  simp [scan_path, h, FSNode.isDir]

theorem scan_path_dir (cfg : Config) (fs : FS) (fuel : Nat) (path : String)
    (st : ScanState) (h : fsFind fs path = some .dir)
    (hnc : (scan_source cfg path none st).1 = false) :
    scan_path cfg fs (fuel + 1) path st =
      scan_directory (fun q s => scan_path cfg fs fuel q s) fs path
        (scan_source cfg path none st).2 := by
  simp [scan_path, h, FSNode.isDir, hnc]

end ModelScan

/- ## Clean-path facts -/

theorem contains_iff_mem {α : Type} [BEq α] [LawfulBEq α] (l : List α) (a : α) :
    l.contains a = true ↔ a ∈ l := by
  simp [List.contains, List.elem_iff]

theorem resolveDotsAux_no_dots :
    ∀ (l acc : List String), ".." ∉ l → resolveDotsAux acc l = acc.reverse ++ l := by
  intro l
  induction l with
  | nil => intro acc _; simp [resolveDotsAux]
  | cons c rest ih =>
    intro acc h
    have hc : c ≠ ".." := fun hh => h (hh ▸ List.mem_cons_self _ _)
    have hr : ".." ∉ rest := fun hh => h (List.mem_cons_of_mem _ hh)
    simp [resolveDotsAux, hc, ih (c :: acc) hr]

theorem resolveDots_no_dots (l : List String) (h : ".." ∉ l) : resolveDots l = l := by
  simpa [resolveDots] using resolveDotsAux_no_dots l [] h

theorem isCleanAbs_isAbs {p : String} (h : isCleanAbs p = true) : isAbs p = true := by
  have hh := h
  unfold isCleanAbs at hh
  exact (Bool.and_eq_true _ _ |>.mp ((Bool.and_eq_true _ _ |>.mp hh).1)).1

theorem isCleanAbs_no_dots {p : String} (h : isCleanAbs p = true) : ".." ∉ parts p := by
  unfold isCleanAbs at h
  have hb := (Bool.and_eq_true _ _ |>.mp ((Bool.and_eq_true _ _ |>.mp h).1)).2
  intro hm
  rw [(contains_iff_mem (parts p) "..").mpr hm] at hb
  simp at hb

theorem isCleanAbs_pathStr {p : String} (h : isCleanAbs p = true) :
    pathStr true (parts p) = p := by
  unfold isCleanAbs at h
  have hb := (Bool.and_eq_true _ _ |>.mp h).2
  exact eq_of_beq hb

theorem normAbs_of_clean {p : String} (h : isCleanAbs p = true) : normAbs p = p := by
  unfold normAbs
  rw [resolveDots_no_dots _ (isCleanAbs_no_dots h), isCleanAbs_pathStr h]

theorem cleanPath_of_clean {p : String} (h : isCleanAbs p = true) : cleanPath p = p := by
  unfold cleanPath
  rw [isCleanAbs_isAbs h, isCleanAbs_pathStr h]

theorem listStarts_self (l : List String) : listStarts l l = true := by
  induction l with
  | nil => rfl
  | cons a rest ih => simp [listStarts, ih]

theorem pyRelativeTo_self (p : String) : pyRelativeTo p p = some "." := by
  unfold pyRelativeTo
  simp [listStarts_self, pathStr, List.drop_length]

theorem pyResolve_of_clean (cwd p : String) (h : isCleanAbs (pyAbsolute cwd p) = true) :
    pyResolve cwd p = pyAbsolute cwd p := by
  unfold pyResolve
  exact normAbs_of_clean h

/- ## Claims -/

/-- C4: for every visit target, dispatch tries every registered scanner in
registry order without stopping at the first claim: the resulting flag is
true iff some scanner returned a non-null result, and the issues and
errors of every claiming scanner are all merged into the session state (in
registry order), with the source recorded once per claiming scanner. -/
theorem c4_dispatch_all_scanners (cfg : Config) (src : String) (d : Option EntryData)
    (st : ScanState) :
    ModelScan.scan_source cfg src d st =
      (!(ModelScan.claimResults cfg.scanners src d).isEmpty,
        ⟨st.issues ++ ((ModelScan.claimResults cfg.scanners src d).map ScanResult.issues).flatten,
         st.errors ++ ((ModelScan.claimResults cfg.scanners src d).map ScanResult.errors).flatten,
         st.skipped,
         st.scanned ++ (ModelScan.claimResults cfg.scanners src d).map (fun _ => src)⟩)
    ∧ ((ModelScan.scan_source cfg src d st).1 = true ↔
        ∃ sc ∈ cfg.scanners, (sc.scan src d).isSome) :=
  ⟨ModelScan.scan_source_spec cfg src d st, ModelScan.scan_source_fst_iff cfg src d st⟩

/-- C8: `open()` on a `Model` that already has an attached stream is a
no-op (a second `open()` in a row changes neither the model nor the
open-file table, so no second underlying handle is attached and ownership
is unchanged), and `get_stream()` with no attached stream fails with
`ModelDataEmpty`, returned synchronously to the caller. -/
theorem c8_open_idempotent_get_stream_empty (source : String) (m : Model) (t : FileTable)
    (off : Nat) :
    Model.openModel (Model.openModel m t).1 (Model.openModel m t).2 = Model.openModel m t
    ∧ (m.stream = none → Model.get_stream m t off = Except.error StreamErr.modelDataEmpty)
    ∧ (Model.maker source none).stream = none := by
  refine ⟨?_, ?_, rfl⟩
  · cases hs : m.stream with
    | some h => simp [Model.openModel, hs]
    | none => simp [Model.openModel, hs, FileTable.openNew]
  · intro h
    simp [Model.get_stream, h]

/-- C8 witness: a freshly constructed `Model` with no external stream has
no attached stream, and `get_stream` on it fails with `ModelDataEmpty`. -/
theorem c8_witness :
    (Model.maker "/f.bin" none).stream = none
    ∧ Model.get_stream (Model.maker "/f.bin" none) ⟨0, []⟩ 0 =
        Except.error StreamErr.modelDataEmpty :=
  ⟨rfl,
    (c8_open_idempotent_get_stream_empty "/f.bin" (Model.maker "/f.bin" none) ⟨0, []⟩ 0).2.1 rfl⟩

/-- C10 (amended): `close()` assigns no field of the `Model` — in
particular it never detaches the stream reference — and closes the
underlying handle only when the `Model` itself opened it; a later
`get_stream()` therefore never fails with `ModelDataEmpty`, but seeking
the closed handle fails with the runtime's closed-file error instead of
returning the handle. -/
theorem c10_close_frame (m : Model) (t t2 : FileTable) (off : Nat) (h : Handle) :
    (Model.closeModel m t).1 = m
    ∧ ((Model.closeModel m t).1).stream = m.stream
    ∧ (m.source_file_used = false → (Model.closeModel m t).2 = t)
    ∧ (m.stream = none → (Model.closeModel m t).2 = t)
    ∧ (m.stream = some h → m.source_file_used = true → (Model.closeModel m t).2 = t.closeH h)
    ∧ (m.stream = some h → t2.isClosed h = true →
        Model.get_stream m t2 off = Except.error StreamErr.seekClosedFile)
    ∧ (m.stream = some h →
        Model.get_stream m t2 off ≠ Except.error StreamErr.modelDataEmpty) := by
  refine ⟨?_, ?_, ?_, ?_, ?_, ?_, ?_⟩
  · cases hs : m.stream with
    | some hh => by_cases hu : m.source_file_used <;> simp [Model.closeModel, hs, hu]
    | none => simp [Model.closeModel, hs]
  · cases hs : m.stream with
    | some hh => by_cases hu : m.source_file_used <;> simp [Model.closeModel, hs, hu]
    | none => simp [Model.closeModel, hs]
  · intro hu
    cases hs : m.stream with
    | some hh => simp [Model.closeModel, hs, hu]
    | none => simp [Model.closeModel, hs]
  · intro hs
    simp [Model.closeModel, hs]
  · intro hs hu
    simp [Model.closeModel, hs, hu]
  · intro hs hcl
    simp [Model.get_stream, hs, hcl]
  · intro hs
    by_cases hcl : t2.isClosed h = true <;> simp [Model.get_stream, hs, hcl]

/-- C10 witness: opening and then closing a path-backed `Model` leaves the
stream attached, the table records the close, and `get_stream` does not
fail with `ModelDataEmpty`. -/
theorem c10_witness :
    (Model.openModel (Model.maker "/data.bin" none) ⟨0, []⟩).1.stream = some ⟨0⟩
    ∧ Model.get_stream (Model.openModel (Model.maker "/data.bin" none) ⟨0, []⟩).1 ⟨1, [0]⟩ 0 ≠
        Except.error StreamErr.modelDataEmpty :=
  ⟨rfl,
    (c10_close_frame (Model.openModel (Model.maker "/data.bin" none) ⟨0, []⟩).1
      ⟨1, []⟩ ⟨1, [0]⟩ 0 ⟨0⟩).2.2.2.2.2.2 rfl⟩

/-- C10 counterexample: after `open()` then `close()`, `get_stream()` does
not return the (still attached, now closed) handle: seeking it fails with
the closed-file error, which is not `ModelDataEmpty`. -/
theorem c10_counterexample :
    (Model.openModel (Model.maker "/data.bin" none) ⟨0, []⟩).1.stream = some ⟨0⟩
    ∧ Model.get_stream (Model.openModel (Model.maker "/data.bin" none) ⟨0, []⟩).1
        ((Model.closeModel (Model.openModel (Model.maker "/data.bin" none) ⟨0, []⟩).1
          (Model.openModel (Model.maker "/data.bin" none) ⟨0, []⟩).2).2) 0 =
        Except.error StreamErr.seekClosedFile
    ∧ (Except.error StreamErr.seekClosedFile : Except StreamErr Handle) ≠ Except.ok ⟨0⟩ := by
  refine ⟨rfl, rfl, ?_⟩
  intro hcontra
  exact Except.noConfusion hcontra

/-- C6 counterexample: `is_compatible` returns true for a suffix declared
only by a disabled scanner entry, while the claim's enabled-only
formulation returns false — the claimed iff fails on the code. -/
theorem c6_counterexample :
    ModelScan.is_compatible c6_settings "a.pkl" = true
    ∧ is_compatible_specVersion c6_settings "a.pkl" = false := by
  exact ⟨by decide, by decide⟩

/-- C6 (amended): `is_compatible` performs no I/O or dispatch and is a pure
function of the path's suffix and the configuration; it returns true iff
the suffix is in the configured archive-extension set or in the declared
supported-extensions set of some configured scanner entry — enabled or
not, since the enabled flag is never consulted. -/
theorem c6_is_compatible_suffix_only (s : Settings) (path : String) :
    (ModelScan.is_compatible s path = true ↔
      pySuffix path ∈ s.supported_zip_extensions ∨
        ∃ pc ∈ s.scanners, ∃ exts,
          pc.2.supported_extensions = some exts ∧ pySuffix path ∈ exts)
    ∧ (∀ q, pySuffix q = pySuffix path →
        ModelScan.is_compatible s q = ModelScan.is_compatible s path) := by
  have hper : ∀ pc : String × ScannerSetting,
      ((match pc.2.supported_extensions with
        | some exts => exts.contains (pySuffix path)
        | none => false) = true) ↔
        ∃ exts, pc.2.supported_extensions = some exts ∧ pySuffix path ∈ exts := by
    intro pc
    cases hse : pc.2.supported_extensions with
    | none => simp [hse]
    | some exts => simp [hse, contains_iff_mem]
  constructor
  · unfold ModelScan.is_compatible
    by_cases hz : s.supported_zip_extensions.contains (pySuffix path) = true
    · simp [hz, (contains_iff_mem _ _).mp hz]
    · have hz' : pySuffix path ∉ s.supported_zip_extensions := fun hm =>
        hz ((contains_iff_mem _ _).mpr hm)
      simp only [hz, Bool.false_eq_true, if_false, List.any_eq_true, hper]
      simp [hz']
  · intro q hq
    unfold ModelScan.is_compatible
    rw [hq]

/-- C6 witness: two paths with the same suffix get the same answer. -/
theorem c6_witness :
    pySuffix "sub/b.pkl" = pySuffix "a.pkl"
    ∧ ModelScan.is_compatible c6_settings "sub/b.pkl" =
        ModelScan.is_compatible c6_settings "a.pkl" :=
  ⟨by decide, (c6_is_compatible_suffix_only c6_settings "a.pkl").2 "sub/b.pkl" (by decide)⟩

/-- C1 (amended): a file path claimed by dispatch is recorded as scanned,
is never treated as a directory and is not itself appended to the skipped
list; but when its content sniffs as a zip or its suffix is in the
configured archive-extension set it is still opened as an archive
(`_scan_zip` runs on it), because the archive branch is not guarded by the
claim flag. -/
theorem c1_claimed_file_stops_except_archive (cfg : Config) (fs : FS) (fuel : Nat)
    (path : String) (st : ScanState) (d : FileData)
    (h : fsFind fs path = some (.file d))
    (hclaim : (ModelScan.scan_source cfg path none st).1 = true) :
    path ∈ (ModelScan.scan_source cfg path none st).2.scanned
    ∧ ModelScan.scan_path cfg fs (fuel + 1) path st =
        (if is_zipfile fs path || cfg.zipExts.contains (pySuffix path) then
          ModelScan.scan_zip cfg fs path (ModelScan.scan_source cfg path none st).2
        else (ModelScan.scan_source cfg path none st).2) := by
  constructor
  · rw [ModelScan.scan_source_spec]
    rw [ModelScan.scan_source_spec] at hclaim
    simp only at hclaim ⊢
    cases hcl : ModelScan.claimResults cfg.scanners path none with
    | nil => rw [hcl] at hclaim; simp at hclaim
    | cons r rest => simp
  · rw [ModelScan.scan_path_file cfg fs fuel path st d h]
    cases hz : (is_zipfile fs path || cfg.zipExts.contains (pySuffix path)) with
    | true => simp [hz]
    | false => simp [hz, hclaim]

/-- C1 witness: the amended behaviour at a claimed zip-sniffing file. -/
theorem c1_witness :
    fsFind c1_fs "/w/m.zip" = some (.file ⟨true, some [⟨"inner.bin", false⟩]⟩)
    ∧ (ModelScan.scan_source c1_cfg "/w/m.zip" none ⟨[], [], [], []⟩).1 = true
    ∧ "/w/m.zip" ∈ (ModelScan.scan_source c1_cfg "/w/m.zip" none ⟨[], [], [], []⟩).2.scanned :=
  ⟨by decide, by decide,
    (c1_claimed_file_stops_except_archive c1_cfg c1_fs 1 "/w/m.zip" ⟨[], [], [], []⟩
      ⟨true, some [⟨"inner.bin", false⟩]⟩ (by decide) (by decide)).1⟩

/-- C1 counterexample: a path claimed by dispatch (so recorded as scanned)
whose content sniffs as a zip is nevertheless opened as an archive — its
member is visited and recorded under the composite locator, refuting
"traversal of P stops there". -/
theorem c1_counterexample :
    (ModelScan.scan_source c1_cfg "/w/m.zip" none ⟨[], [], [], []⟩).1 = true
    ∧ (ModelScan.scan_path c1_cfg c1_fs 2 "/w/m.zip" ⟨[], [], [], []⟩).scanned = ["/w/m.zip"]
    ∧ (ModelScan.scan_path c1_cfg c1_fs 2 "/w/m.zip" ⟨[], [], [], []⟩).skipped =
        ["/w/m.zip:inner.bin"] := by
  exact ⟨by decide, by decide, by decide⟩

theorem loadErrors_nil_of_ok (resolve : String → Except String Scanner)
    (l : List (String × ScannerSetting))
    (hok : ∀ pc ∈ l, pc.2.enabled = some true → ∃ sc, resolve pc.1 = Except.ok sc) :
    ModelScan.loadErrors resolve l = [] := by
  rw [ModelScan.loadErrors, List.filterMap_eq_nil_iff]
  intro pc hpc
  by_cases he : pc.2.enabled = some true
  · obtain ⟨sc, hsc⟩ := hok pc hpc he
    simp [he, hsc]
  · simp [he]

theorem loadedScanners_length (resolve : String → Except String Scanner)
    (l : List (String × ScannerSetting))
    (hok : ∀ pc ∈ l, pc.2.enabled = some true → ∃ sc, resolve pc.1 = Except.ok sc) :
    (ModelScan.loadedScanners resolve l).length =
      (l.filter (fun pc => decide (pc.2.enabled = some true))).length := by
  induction l with
  | nil => simp [ModelScan.loadedScanners]
  | cons pc rest ih =>
    have hok' : ∀ qc ∈ rest, qc.2.enabled = some true → ∃ sc, resolve qc.1 = Except.ok sc :=
      fun qc hqc => hok qc (List.mem_cons_of_mem _ hqc)
    by_cases he : pc.2.enabled = some true
    · obtain ⟨sc, hsc⟩ := hok pc (List.mem_cons_self _ _) he
      have hih := ih hok'
      unfold ModelScan.loadedScanners at hih ⊢
      rw [List.filterMap_cons, List.filter_cons, if_pos he, hsc]
      simp only [Except.toOption, he, List.length_cons]
      simp only [decide_eq_true_eq, if_pos]
      exact congrArg (fun n => n + 1) hih
    · have hih := ih hok'
      unfold ModelScan.loadedScanners at hih ⊢
      rw [List.filterMap_cons, List.filter_cons, if_neg he]
      simp only [he, decide_eq_true_eq, if_neg, not_false_iff]
      exact hih

/-- C7: if, among the enabled scanner entries of a configuration, exactly
one fails to resolve, the registry records exactly one initialisation
error tagged with that scanner's identifier, still loads every other
enabled entry (in configuration order, all of them), and dispatch during a
subsequent scan tries each loaded scanner — the claim flag is true iff one
of the surviving scanners claims the target. -/
theorem c7_one_bad_scanner_isolated (resolve : String → Except String Scanner)
    (s : Settings) (pre post : List (String × ScannerSetting))
    (bad : String) (bcfg : ScannerSetting) (emsg : String)
    (hs : s.scanners = pre ++ (bad, bcfg) :: post)
    (hbe : bcfg.enabled = some true)
    (hbr : resolve bad = Except.error emsg)
    (hok : ∀ pc ∈ pre ++ post, pc.2.enabled = some true → ∃ sc, resolve pc.1 = Except.ok sc) :
    (ModelScan.load_scanners resolve s.scanners).2 =
      [ModelScanError bad ("Error importing scanner " ++ bad ++ ": " ++ emsg)]
    ∧ (ModelScan.load_scanners resolve s.scanners).1 =
        ModelScan.loadedScanners resolve pre ++ ModelScan.loadedScanners resolve post
    ∧ (ModelScan.load_scanners resolve s.scanners).1.length =
        ((pre ++ post).filter (fun pc => decide (pc.2.enabled = some true))).length
    ∧ (∀ (src : String) (d : Option EntryData) (st : ScanState),
        ((ModelScan.scan_source ⟨(ModelScan.load_scanners resolve s.scanners).1,
            s.supported_zip_extensions⟩ src d st).1 = true ↔
          ∃ sc ∈ (ModelScan.load_scanners resolve s.scanners).1, (sc.scan src d).isSome)) := by
  have hokPre : ∀ pc ∈ pre, pc.2.enabled = some true → ∃ sc, resolve pc.1 = Except.ok sc :=
    fun pc hpc => hok pc (List.mem_append_left _ hpc)
  have hokPost : ∀ pc ∈ post, pc.2.enabled = some true → ∃ sc, resolve pc.1 = Except.ok sc :=
    fun pc hpc => hok pc (List.mem_append_right _ hpc)
  have herr : (ModelScan.load_scanners resolve s.scanners).2 =
      [ModelScanError bad ("Error importing scanner " ++ bad ++ ": " ++ emsg)] := by
    rw [ModelScan.load_scanners_eq, hs]
    simp only [ModelScan.loadErrors, List.filterMap_append, List.filterMap_cons]
    rw [← ModelScan.loadErrors, ← ModelScan.loadErrors,
      loadErrors_nil_of_ok resolve pre hokPre, loadErrors_nil_of_ok resolve post hokPost]
    simp [hbe, hbr]
  have hld : (ModelScan.load_scanners resolve s.scanners).1 =
      ModelScan.loadedScanners resolve pre ++ ModelScan.loadedScanners resolve post := by
    rw [ModelScan.load_scanners_eq, hs]
    simp only [ModelScan.loadedScanners, List.filterMap_append, List.filterMap_cons]
    simp [hbe, hbr, Except.toOption]
  refine ⟨herr, hld, ?_, ?_⟩
  · rw [hld, List.length_append, List.filter_append, List.length_append,
      loadedScanners_length resolve pre hokPre, loadedScanners_length resolve post hokPost]
  · intro src d st
    exact ModelScan.scan_source_fst_iff _ src d st

/-- C7 witness: two enabled entries, the second fails to resolve; exactly
one tagged initialisation error and the surviving scanner is loaded. -/
theorem c7_witness :
    (ModelScan.load_scanners c7_resolve c7_settings.scanners).2 =
      [ModelScanError "m.bad.B" ("Error importing scanner " ++ "m.bad.B" ++ ": " ++ "boom")]
    ∧ (ModelScan.load_scanners c7_resolve c7_settings.scanners).1 =
        ModelScan.loadedScanners c7_resolve [("m.good.G", ⟨some true, none⟩)] ++
          ModelScan.loadedScanners c7_resolve [] := by
  have h := c7_one_bad_scanner_isolated c7_resolve c7_settings
    [("m.good.G", ⟨some true, none⟩)] [] "m.bad.B" ⟨some true, none⟩ "boom"
    rfl rfl rfl
    (by
      intro pc hpc _
      have hp : pc = ("m.good.G", (⟨some true, none⟩ : ScannerSetting)) := by
        simpa using hpc
      exact ⟨c7_goodScanner, by rw [hp]; rfl⟩)
  exact ⟨h.1, h.2.1⟩

/-- C3 (amended): for a non-existent path P (with a well-formed absolutised
form), `scan(P)` completes normally: the session records exactly the
absolutised P as skipped, nothing as scanned, and exactly one error whose
description names the absolutised P; the returned report carries that
error, but its `skipped_files` holds the root-relativised entry `"."`
rather than P itself. -/
theorem c3_missing_path (fs : FS) (cwd : String) (ms : ModelScan) (P : String)
    (hP : (P == ".") = false)
    (hA : isCleanAbs (pyAbsolute cwd P) = true)
    (hnf : fsFind fs (pyAbsolute cwd P) = none)
    (hinit : ms.init_errors = []) :
    (ModelScan.scan fs cwd ms P).1.skipped = [pyAbsolute cwd P]
    ∧ (ModelScan.scan fs cwd ms P).1.scanned = []
    ∧ (ModelScan.scan fs cwd ms P).1.errors =
        [ModelScanError "ModelScan" ("Path " ++ pyAbsolute cwd P ++ " is not valid")]
    ∧ (ModelScan.scan fs cwd ms P).2 =
        some
          { total_issues_by_severity := severityList.map (fun s => (severityName s, 0))
            total_issues := 0
            input_path := P
            absolute_path := pyAbsolute cwd P
            total_skipped := 1
            skipped_files := ["."]
            total_scanned := 0
            scanned_files := []
            issues := []
            errors := [⟨some ("Path " ++ pyAbsolute cwd P ++ " is not valid"), none⟩] } := by
  have hclean := cleanPath_of_clean hA
  have hfuel : fs.length + 2 = (fs.length + 1) + 1 := rfl
  unfold ModelScan.scan
  simp only [hP, Bool.false_eq_true, if_false, hclean, hfuel]
  rw [ModelScan.scan_path_missing _ fs (fs.length + 1) _ _ hnf]
  simp only [hinit]
  unfold ModelScan.generate_results
  rw [pyResolve_of_clean cwd P hA]
  simp only [fsIsFile, hnf]
  simp [mapOpt, pyRelativeTo_self, ModelScan.renderErrors, ModelScanError, severityList]

/-- C3 witness: the amended behaviour at a concrete missing path. -/
theorem c3_witness :
    ("/w/missing.bin" == ".") = false
    ∧ isCleanAbs (pyAbsolute "/w" "/w/missing.bin") = true
    ∧ fsFind ([] : FS) (pyAbsolute "/w" "/w/missing.bin") = none
    ∧ (ModelScan.scan ([] : FS) "/w" c3_ms "/w/missing.bin").1.skipped =
        [pyAbsolute "/w" "/w/missing.bin"] :=
  ⟨by decide, by decide, by decide,
    (c3_missing_path ([] : FS) "/w" c3_ms "/w/missing.bin"
      (by decide) (by decide) (by decide) rfl).1⟩

/-- C3 counterexample: for the missing path "/w/missing.bin" the report's
`skipped_files` is `["."]`, not `["/w/missing.bin"]` — the claimed
`skipped_files = [P]` fails on the code. -/
theorem c3_counterexample :
    ((ModelScan.scan ([] : FS) "/w" c3_ms "/w/missing.bin").2).map Report.skipped_files =
      some ["."]
    ∧ (["."] : List String) ≠ ["/w/missing.bin"] :=
  ⟨by decide, by decide⟩

theorem fold_errors_mono (visit : String → ScanState → ScanState)
    (hvisit : ∀ q st, ∃ δ, (visit q st).errors = st.errors ++ δ) :
    ∀ (files : List String) (st : ScanState),
      ∃ δ, (files.foldl (fun s q => visit q s) st).errors = st.errors ++ δ := by
  intro files
  induction files with
  | nil => intro st; exact ⟨[], by simp⟩
  | cons f rest ih =>
    intro st
    obtain ⟨δ1, h1⟩ := hvisit f st
    obtain ⟨δ2, h2⟩ := ih (visit f st)
    exact ⟨δ1 ++ δ2, by simp [List.foldl_cons, h2, h1, List.append_assoc]⟩

theorem scan_path_errors_mono (cfg : Config) (fs : FS) :
    ∀ (fuel : Nat) (p : String) (st : ScanState),
      ∃ δ, (ModelScan.scan_path cfg fs fuel p st).errors = st.errors ++ δ := by
  intro fuel
  induction fuel with
  | zero => intro p st; exact ⟨[], by simp [ModelScan.scan_path]⟩
  | succ n ih =>
    intro p st
    cases hf : fsFind fs p with
    | none =>
      rw [ModelScan.scan_path_missing cfg fs n p st hf]
      exact ⟨_, rfl⟩
    | some node =>
      have hsrc := ModelScan.scan_source_spec cfg p none st
      have hE : (ModelScan.scan_source cfg p none st).2.errors =
          st.errors ++
            ((ModelScan.claimResults cfg.scanners p none).map ScanResult.errors).flatten := by
        rw [hsrc]
      simp only [ModelScan.scan_path, hf]
      by_cases h1 : (!(ModelScan.scan_source cfg p none st).1 && node.isDir) = true
      · rw [if_pos h1]
        unfold ModelScan.scan_directory
        obtain ⟨δ1, hδ1⟩ := fold_errors_mono (fun q s => ModelScan.scan_path cfg fs n q s)
          (fun q s => ih q s) (rglobFiles fs p) (ModelScan.scan_source cfg p none st).2
        refine ⟨((ModelScan.claimResults cfg.scanners p none).map ScanResult.errors).flatten
          ++ δ1, ?_⟩
        rw [hδ1, hE, List.append_assoc]
      · rw [if_neg h1]
        by_cases h2 : (is_zipfile fs p || cfg.zipExts.contains (pySuffix p)) = true
        · rw [if_pos h2]
          cases hz : zipOpenFS fs p with
          | some entries =>
            rw [ModelScan.scan_zip_of_open cfg fs p _ entries hz]
            refine ⟨((ModelScan.claimResults cfg.scanners p none).map ScanResult.errors).flatten
              ++ ModelScan.zipErrsDelta cfg p entries, ?_⟩
            simp only [hE, List.append_assoc]
          | none =>
            rw [ModelScan.scan_zip_of_bad cfg fs p _ hz]
            refine ⟨((ModelScan.claimResults cfg.scanners p none).map
              ScanResult.errors).flatten, ?_⟩
            simp only [hE]
        · rw [if_neg h2]
          by_cases h3 : (!(ModelScan.scan_source cfg p none st).1) = true
          · rw [if_pos h3]
            refine ⟨((ModelScan.claimResults cfg.scanners p none).map
              ScanResult.errors).flatten, ?_⟩
            simp only [hE]
          · rw [if_neg h3]
            refine ⟨((ModelScan.claimResults cfg.scanners p none).map
              ScanResult.errors).flatten, ?_⟩
            simp only [hE]

theorem renderErrors_append (root : String) (a b : List Err) :
    ModelScan.renderErrors root (a ++ b) =
      (ModelScan.renderErrors root a).bind
        (fun ra => (ModelScan.renderErrors root b).map (fun rb => ra ++ rb)) := by
  induction a with
  | nil =>
    cases hb : ModelScan.renderErrors root b with
    | none => simp [ModelScan.renderErrors, hb]
    | some rb => simp [ModelScan.renderErrors, hb]
  | cons e rest ih =>
    cases hs : e.source with
    | some s =>
      cases hr : pyRelativeTo s root with
      | none => simp [ModelScan.renderErrors, hs, hr, ih]
      | some rs =>
        simp only [List.cons_append, ModelScan.renderErrors, hs, hr]
        cases hra : ModelScan.renderErrors root rest with
        | none => simp [ih, hra]
        | some ra =>
          cases hb : ModelScan.renderErrors root b with
          | none => simp [ih, hra, hb]
          | some rb => simp [ih, hra, hb]
    | none =>
      by_cases hm : e.message.isSome
      · simp only [List.cons_append, ModelScan.renderErrors, hs, hm, if_pos]
        cases hra : ModelScan.renderErrors root rest with
        | none => simp [ih, hra]
        | some ra =>
          cases hb : ModelScan.renderErrors root b with
          | none => simp [ih, hra, hb]
          | some rb => simp [ih, hra, hb]
      · simp only [List.cons_append, ModelScan.renderErrors, hs, hm, if_neg]
        simp only [Bool.false_eq_true, if_false]
        exact ih

theorem renderErrors_all_msgs (root : String) (l : List Err)
    (h : ∀ e ∈ l, e.source = none ∧ e.message.isSome) :
    ModelScan.renderErrors root l = some (l.map (fun e => ErrorEntry.mk e.message none)) := by
  induction l with
  | nil => simp [ModelScan.renderErrors]
  | cons e rest ih =>
    obtain ⟨hs, hm⟩ := h e (List.mem_cons_self _ _)
    have ihr := ih (fun e2 he2 => h e2 (List.mem_cons_of_mem _ he2))
    simp [ModelScan.renderErrors, hs, hm, ihr]

/-- C9: `scan()` resets the session error list and re-seeds it from the
initialisation errors saved at construction time before traversal begins:
the instance's saved `init_errors` survive unchanged, the post-scan error
list starts with them, the report's error list starts with their
renderings, and the result is independent of whatever session state was
left by a previous invocation — so every subsequent `scan()` call reports
them, not only the first. -/
theorem c9_init_errors_reseeded (fs : FS) (cwd : String) (ms : ModelScan) (p : String)
    (hsrc : ∀ e ∈ ms.init_errors, e.source = none ∧ e.message.isSome) :
    (ModelScan.scan fs cwd ms p).1.init_errors = ms.init_errors
    ∧ (∃ δ, (ModelScan.scan fs cwd ms p).1.errors = ms.init_errors ++ δ)
    ∧ (∀ r, (ModelScan.scan fs cwd ms p).2 = some r →
        ∃ tl, r.errors =
          ms.init_errors.map (fun e => ErrorEntry.mk e.message none) ++ tl)
    ∧ (∀ e0 i0 s0 c0 ip0,
        ModelScan.scan fs cwd
          { ms with errors := e0, issues := i0, skipped := s0, scanned := c0
                    input_path := ip0 } p =
          ModelScan.scan fs cwd ms p) := by
  have hbase : (ModelScan.scan fs cwd ms p).1.errors =
      (ModelScan.scan_path
        (ModelScan.msConfig
          { ms with issues := [], errors := ms.init_errors, skipped := [], scanned := []
                    input_path := p })
        fs (fs.length + 2)
        (if p == "." then cwd else cleanPath (pyAbsolute cwd p))
        ⟨[], ms.init_errors, [], []⟩).errors := rfl
  obtain ⟨δ, hδ⟩ := scan_path_errors_mono
    (ModelScan.msConfig
      { ms with issues := [], errors := ms.init_errors, skipped := [], scanned := []
                input_path := p })
    fs (fs.length + 2)
    (if p == "." then cwd else cleanPath (pyAbsolute cwd p))
    ⟨[], ms.init_errors, [], []⟩
  have herrs : (ModelScan.scan fs cwd ms p).1.errors = ms.init_errors ++ δ := by
    rw [hbase, hδ]
  refine ⟨rfl, ⟨δ, herrs⟩, ?_, fun e0 i0 s0 c0 ip0 => rfl⟩
  intro r hr
  have h2 : ModelScan.generate_results fs cwd (ModelScan.scan fs cwd ms p).1 = some r := hr
  unfold ModelScan.generate_results at h2
  simp only [Option.bind_eq_bind, Option.bind_eq_some] at h2
  obtain ⟨sk, hsk, sc2, hsc2, iss, hiss, errs, herr2, hfin⟩ := h2
  rw [herrs, renderErrors_append, renderErrors_all_msgs _ ms.init_errors hsrc] at herr2
  cases hrδ : ModelScan.renderErrors
      (if fsIsFile fs (pyResolve cwd (ModelScan.scan fs cwd ms p).1.input_path) then
        parentPath (pyResolve cwd (ModelScan.scan fs cwd ms p).1.input_path)
      else pyResolve cwd (ModelScan.scan fs cwd ms p).1.input_path) δ with
  | none =>
    rw [hrδ] at herr2
    simp at herr2
  | some rδ =>
    rw [hrδ] at herr2
    simp at herr2
    refine ⟨rδ, ?_⟩
    have hrr : r.errors = errs := by
      have hfin2 := hfin
      injection hfin2 with hh
      rw [← hh]
    rw [hrr, ← herr2]

/-- C9 witness: an instance with one saved initialisation error keeps it. -/
theorem c9_witness :
    (∀ e ∈ c9_ms.init_errors, e.source = none ∧ e.message.isSome)
    ∧ (ModelScan.scan ([] : FS) "/w" c9_ms "/w/x.bin").1.init_errors = c9_ms.init_errors :=
  ⟨by decide, (c9_init_errors_reseeded ([] : FS) "/w" c9_ms "/w/x.bin" (by decide)).1⟩

theorem entryLoc_name_inj (A : String) (e1 e2 : EntryData)
    (h : ModelScan.entryLoc A e1 = ModelScan.entryLoc A e2) : e1.name = e2.name := by
  unfold ModelScan.entryLoc at h
  have hd := congrArg String.data h
  simp only [String.data_append] at hd
  exact String.ext (List.append_cancel_left hd)

theorem mem_zipScannedDelta (cfg : Config) (A : String) (entries : List EntryData)
    (x : String) :
    x ∈ ModelScan.zipScannedDelta cfg A entries ↔
      ∃ e ∈ entries, (ModelScan.entryClaims cfg A e).isEmpty = false ∧
        x = ModelScan.entryLoc A e := by
  unfold ModelScan.zipScannedDelta
  simp only [List.mem_flatten, List.mem_map]
  constructor
  · rintro ⟨l, ⟨e, he, rfl⟩, hx⟩
    rw [List.mem_map] at hx
    obtain ⟨r, hr, rfl⟩ := hx
    refine ⟨e, he, ?_, rfl⟩
    cases hcl : ModelScan.entryClaims cfg A e with
    | nil => rw [hcl] at hr; exact absurd hr (List.not_mem_nil _)
    | cons a b => simp
  · rintro ⟨e, he, hne, rfl⟩
    refine ⟨(ModelScan.entryClaims cfg A e).map (fun _ => ModelScan.entryLoc A e),
      ⟨e, he, rfl⟩, ?_⟩
    rw [List.mem_map]
    cases hcl : ModelScan.entryClaims cfg A e with
    | nil => rw [hcl] at hne; simp at hne
    | cons a b => exact ⟨a, by simp⟩

theorem mem_zipSkippedDelta (cfg : Config) (A : String) (entries : List EntryData)
    (x : String) :
    x ∈ ModelScan.zipSkippedDelta cfg A entries ↔
      ∃ e ∈ entries, (ModelScan.entryClaims cfg A e).isEmpty = true ∧
        x = ModelScan.entryLoc A e := by
  unfold ModelScan.zipSkippedDelta
  simp only [List.mem_map, List.mem_filter]
  constructor
  · rintro ⟨e, ⟨he, hemp⟩, rfl⟩
    exact ⟨e, he, hemp, rfl⟩
  · rintro ⟨e, he, hemp, rfl⟩
    exact ⟨e, ⟨he, hemp⟩, rfl⟩

/-- C5: for a valid archive A whose member names are distinct and whose
composite locators are fresh in the session state, every entry is
recorded, under its composite locator `A:entry`, in the scanned list iff
some scanner claimed it and in the skipped list iff no scanner claimed it
— exactly one of the two, never both; and an unclaimed entry that itself
sniffs as a zip is never recursed into: the engine records the
nested-archive error naming `A:entry` and skips the entry. -/
theorem c5_archive_entries (cfg : Config) (fs : FS) (A : String)
    (entries : List EntryData) (st : ScanState)
    (hopen : zipOpenFS fs A = some entries)
    (hnd : (entries.map EntryData.name).Nodup)
    (hsc : ∀ e ∈ entries, ModelScan.entryLoc A e ∉ st.scanned)
    (hsk : ∀ e ∈ entries, ModelScan.entryLoc A e ∉ st.skipped) :
    ∀ e ∈ entries,
      (ModelScan.entryLoc A e ∈ (ModelScan.scan_zip cfg fs A st).scanned ↔
        (ModelScan.entryClaims cfg A e).isEmpty = false)
      ∧ (ModelScan.entryLoc A e ∈ (ModelScan.scan_zip cfg fs A st).skipped ↔
        (ModelScan.entryClaims cfg A e).isEmpty = true)
      ∧ ¬(ModelScan.entryLoc A e ∈ (ModelScan.scan_zip cfg fs A st).scanned ∧
          ModelScan.entryLoc A e ∈ (ModelScan.scan_zip cfg fs A st).skipped)
      ∧ ((ModelScan.entryClaims cfg A e).isEmpty = true → e.sniffsZip = true →
          ModelScanError "ModelScan" (ModelScan.nestedZipMsg (ModelScan.entryLoc A e)) ∈
            (ModelScan.scan_zip cfg fs A st).errors) := by
  intro e he
  rw [ModelScan.scan_zip_of_open cfg fs A st entries hopen]
  have hinj : ∀ e2 ∈ entries, ModelScan.entryLoc A e2 = ModelScan.entryLoc A e → e2 = e :=
    fun e2 he2 hl =>
      List.inj_on_of_nodup_map hnd he2 he (entryLoc_name_inj A e2 e hl)
  have hscan : ModelScan.entryLoc A e ∈
      (st.scanned ++ ModelScan.zipScannedDelta cfg A entries) ↔
      (ModelScan.entryClaims cfg A e).isEmpty = false := by
    rw [List.mem_append, mem_zipScannedDelta]
    constructor
    · rintro (hmem | ⟨e2, he2, hne, hl⟩)
      · exact absurd hmem (hsc e he)
      · rwa [hinj e2 he2 hl.symm] at hne
    · intro hne
      exact Or.inr ⟨e, he, hne, rfl⟩
  have hskip : ModelScan.entryLoc A e ∈
      (st.skipped ++ ModelScan.zipSkippedDelta cfg A entries) ↔
      (ModelScan.entryClaims cfg A e).isEmpty = true := by
    rw [List.mem_append, mem_zipSkippedDelta]
    constructor
    · rintro (hmem | ⟨e2, he2, hemp, hl⟩)
      · exact absurd hmem (hsk e he)
      · rwa [hinj e2 he2 hl.symm] at hemp
    · intro hemp
      exact Or.inr ⟨e, he, hemp, rfl⟩
  refine ⟨hscan, hskip, ?_, ?_⟩
  · rintro ⟨h1, h2⟩
    rw [hscan] at h1
    rw [hskip] at h2
    rw [h2] at h1
    exact absurd h1 (by simp)
  · intro hemp hz
    apply List.mem_append_right
    unfold ModelScan.zipErrsDelta
    rw [List.mem_flatten]
    refine ⟨((ModelScan.entryClaims cfg A e).map ScanResult.errors).flatten ++
      (if (ModelScan.entryClaims cfg A e).isEmpty && e.sniffsZip then
        [ModelScanError "ModelScan" (ModelScan.nestedZipMsg (ModelScan.entryLoc A e))]
      else []), ?_, ?_⟩
    · rw [List.mem_map]
      exact ⟨e, he, rfl⟩
    · rw [hemp, hz]
      simp

theorem isAbs_ne_dot {p : String} (h : isAbs p = true) : (p == ".") = false := by
  cases hBE : (p == ".") with
  | false => rfl
  | true =>
    exfalso
    have hp : p = "." := eq_of_beq hBE
    rw [hp] at h
    exact absurd h (by decide)

theorem scan_path_file_perm (cfg : Config) (fs : FS) (n : Nat) (p : String) (st : ScanState)
    (d : FileData) (hf : fsFind fs p = some (.file d))
    (hnz : (is_zipfile fs p || cfg.zipExts.contains (pySuffix p)) = false)
    (hc1 : (ModelScan.claimResults cfg.scanners p none).length ≤ 1) :
    ((ModelScan.scan_path cfg fs (n + 1) p st).scanned ++
        (ModelScan.scan_path cfg fs (n + 1) p st).skipped).Perm
      ((st.scanned ++ st.skipped) ++ [p]) := by
  have hnz' : ¬((is_zipfile fs p || cfg.zipExts.contains (pySuffix p)) = true) := by
    rw [hnz]; simp
  rw [ModelScan.scan_path_file cfg fs n p st d hf, if_neg hnz']
  simp only [ModelScan.scan_source_spec]
  cases hcl : ModelScan.claimResults cfg.scanners p none with
  | nil =>
    simp only [hcl, List.isEmpty_nil, Bool.not_true, List.map_nil, List.append_nil,
      Bool.not_false, if_pos]
    simp only [List.append_assoc]
    exact List.Perm.refl _
  | cons r rest =>
    have hrest : rest = [] := by
      cases rest with
      | nil => rfl
      | cons r2 tl => rw [hcl] at hc1; simp at hc1
    subst hrest
    simp only [hcl, List.isEmpty_cons, Bool.not_false, Bool.not_true, Bool.false_eq_true,
      if_false, List.map_cons, List.map_nil]
    have h1 : (st.scanned ++ [p]) ++ st.skipped = st.scanned ++ ([p] ++ st.skipped) :=
      List.append_assoc _ _ _
    have h2 : st.scanned ++ (st.skipped ++ [p]) = (st.scanned ++ st.skipped) ++ [p] :=
      (List.append_assoc _ _ _).symm
    rw [h1, ← h2]
    exact List.Perm.append_left _ List.perm_append_comm

theorem dir_fold_perm (cfg : Config) (fs : FS) (n : Nat) (files : List String)
    (hfiles : ∀ p ∈ files, ∃ d, fsFind fs p = some (.file d) ∧
      (is_zipfile fs p || cfg.zipExts.contains (pySuffix p)) = false ∧
      (ModelScan.claimResults cfg.scanners p none).length ≤ 1) :
    ∀ st : ScanState,
      ((files.foldl (fun s q => ModelScan.scan_path cfg fs (n + 1) q s) st).scanned ++
          (files.foldl (fun s q => ModelScan.scan_path cfg fs (n + 1) q s) st).skipped).Perm
        ((st.scanned ++ st.skipped) ++ files) := by
  induction files with
  | nil => intro st; simp
  | cons f rest ih =>
    intro st
    obtain ⟨d, hf, hnz, hc1⟩ := hfiles f (List.mem_cons_self _ _)
    have hrest : ∀ p ∈ rest, ∃ d, fsFind fs p = some (.file d) ∧
        (is_zipfile fs p || cfg.zipExts.contains (pySuffix p)) = false ∧
        (ModelScan.claimResults cfg.scanners p none).length ≤ 1 :=
      fun p hp => hfiles p (List.mem_cons_of_mem _ hp)
    have hstep := scan_path_file_perm cfg fs n f st d hf hnz hc1
    have hfold := ih hrest (ModelScan.scan_path cfg fs (n + 1) f st)
    rw [List.foldl_cons]
    refine hfold.trans ?_
    have := hstep.append_right rest
    refine this.trans ?_
    rw [List.append_assoc]
    exact List.Perm.refl _

/-- C2 (amended): for a directory D (clean absolute, not claimed by any
scanner) whose non-directory descendants are plain files — none sniffing
as a zip or carrying an archive suffix — and each claimed by at most one
scanner, `scan(D)` partitions exactly those descendants between the
session's scanned and skipped lists: their concatenation is a permutation
of the descendant list, and when the descendants are distinct no path is
duplicated or in both lists.  (Without the at-most-one-claim and
non-archive side conditions the invariant fails, see the
counterexample.) -/
theorem c2_dir_partition (fs : FS) (cwd : String) (ms : ModelScan) (D : String)
    (hD : isCleanAbs D = true)
    (hfind : fsFind fs D = some .dir)
    (hnoclaim : ∀ sc ∈ ms.scanners_to_run, sc.scan D none = none)
    (hfiles : ∀ p ∈ rglobFiles fs D, ∃ d, fsFind fs p = some (.file d) ∧
      (is_zipfile fs p ||
        ms.settings.supported_zip_extensions.contains (pySuffix p)) = false ∧
      (ModelScan.claimResults ms.scanners_to_run p none).length ≤ 1) :
    ((ModelScan.scan fs cwd ms D).1.scanned ++
        (ModelScan.scan fs cwd ms D).1.skipped).Perm (rglobFiles fs D)
    ∧ ((rglobFiles fs D).Nodup →
        (ModelScan.scan fs cwd ms D).1.scanned.Nodup
        ∧ (ModelScan.scan fs cwd ms D).1.skipped.Nodup
        ∧ ∀ x, ¬(x ∈ (ModelScan.scan fs cwd ms D).1.scanned ∧
            x ∈ (ModelScan.scan fs cwd ms D).1.skipped)) := by
  have habs : isAbs D = true := isCleanAbs_isAbs hD
  have hdot : (D == ".") = false := isAbs_ne_dot habs
  have hpa : pyAbsolute cwd D = D := by simp [pyAbsolute, habs]
  have hcp : cleanPath D = D := cleanPath_of_clean hD
  have hclD : ModelScan.claimResults
      (Config.mk ms.scanners_to_run ms.settings.supported_zip_extensions).scanners
      D none = [] := by
    unfold ModelScan.claimResults
    rw [List.filterMap_eq_nil_iff]
    intro sc hsc
    exact hnoclaim sc hsc
  have hflag : (ModelScan.scan_source
      ⟨ms.scanners_to_run, ms.settings.supported_zip_extensions⟩ D none
      ⟨[], ms.init_errors, [], []⟩).1 = false := by
    rw [ModelScan.scan_source_spec]
    simp [hclD]
  have hst1 : (ModelScan.scan_source
      ⟨ms.scanners_to_run, ms.settings.supported_zip_extensions⟩ D none
      ⟨[], ms.init_errors, [], []⟩).2 = ⟨[], ms.init_errors, [], []⟩ := by
    rw [ModelScan.scan_source_spec]
    simp [hclD]
  have hsc_eq : (ModelScan.scan fs cwd ms D).1.scanned =
      (ModelScan.scan_path ⟨ms.scanners_to_run, ms.settings.supported_zip_extensions⟩ fs
        (fs.length + 2) (if D == "." then cwd else cleanPath (pyAbsolute cwd D))
        ⟨[], ms.init_errors, [], []⟩).scanned := rfl
  have hsk_eq : (ModelScan.scan fs cwd ms D).1.skipped =
      (ModelScan.scan_path ⟨ms.scanners_to_run, ms.settings.supported_zip_extensions⟩ fs
        (fs.length + 2) (if D == "." then cwd else cleanPath (pyAbsolute cwd D))
        ⟨[], ms.init_errors, [], []⟩).skipped := rfl
  have hpath : (if D == "." then cwd else cleanPath (pyAbsolute cwd D)) = D := by
    simp only [hdot, Bool.false_eq_true, if_false, hpa, hcp]
  have hstep : ModelScan.scan_path
      ⟨ms.scanners_to_run, ms.settings.supported_zip_extensions⟩ fs
      (fs.length + 2) (if D == "." then cwd else cleanPath (pyAbsolute cwd D))
      ⟨[], ms.init_errors, [], []⟩ =
      (rglobFiles fs D).foldl
        (fun s q => ModelScan.scan_path
          ⟨ms.scanners_to_run, ms.settings.supported_zip_extensions⟩ fs
          (fs.length + 1) q s)
        ⟨[], ms.init_errors, [], []⟩ := by
    rw [hpath, show fs.length + 2 = fs.length + 1 + 1 from rfl]
    rw [ModelScan.scan_path_dir _ fs (fs.length + 1) D _ hfind hflag, hst1]
    unfold ModelScan.scan_directory
    rfl
  have hperm := dir_fold_perm
    ⟨ms.scanners_to_run, ms.settings.supported_zip_extensions⟩ fs fs.length
    (rglobFiles fs D) hfiles ⟨[], ms.init_errors, [], []⟩
  have hmain : ((ModelScan.scan fs cwd ms D).1.scanned ++
      (ModelScan.scan fs cwd ms D).1.skipped).Perm (rglobFiles fs D) := by
    rw [hsc_eq, hsk_eq, hstep]
    simpa using hperm
  refine ⟨hmain, ?_⟩
  intro hnd
  have hall := (hmain.symm).nodup hnd
  rcases List.nodup_append.mp hall with ⟨h1, h2, hdisj⟩
  exact ⟨h1, h2, fun x hx => hdisj hx.1 hx.2⟩

/-- C2 witness: the amended partition at a concrete one-file directory. -/
theorem c2_witness :
    isCleanAbs "/d" = true
    ∧ fsFind c2_fs "/d" = some .dir
    ∧ (((ModelScan.scan c2_fs "/" c3_ms "/d").1.scanned ++
        (ModelScan.scan c2_fs "/" c3_ms "/d").1.skipped).Perm (rglobFiles c2_fs "/d")) :=
  ⟨by decide, by decide,
    (c2_dir_partition c2_fs "/" c3_ms "/d" (by decide) (by decide)
      (by intro sc hsc; exact absurd hsc (List.not_mem_nil _))
      (by
        intro p hp
        have hp2 : p = "/d/f.bin" :=
          ((by simpa [rglobFiles, c2_fs, strStarts] using hp :
            charsStart ['/', 'd', '/'] ['/', 'd', '/', 'f', '.', 'b', 'i', 'n'] = true ∧
              "/d/f.bin" = p).2).symm
        subst hp2
        exact ⟨⟨false, none⟩, by decide, by decide, by decide⟩)).1⟩

/-- C2 counterexample: one file claimed by two scanners is recorded twice
in the scanned list (and twice in the report's `scanned_files`), refuting
"never more than once". -/
theorem c2_counterexample :
    ((ModelScan.scan c2_fs "/" c2_ms "/d").1).scanned = ["/d/f.bin", "/d/f.bin"]
    ∧ ((ModelScan.scan c2_fs "/" c2_ms "/d").2).map Report.scanned_files =
        some ["f.bin", "f.bin"]
    ∧ ¬(["/d/f.bin", "/d/f.bin"] : List String).Nodup :=
  ⟨by decide, by decide, by decide⟩

/-- C5 witness: a concrete archive with a claimed member and an unclaimed
nested-zip member; the nested member yields the nesting error and a skip
under its composite locator. -/
theorem c5_witness :
    zipOpenFS c5_fs "/w/a.zip" = some [⟨"good.bin", false⟩, ⟨"nested.zip", true⟩]
    ∧ ModelScanError "ModelScan"
        (ModelScan.nestedZipMsg (ModelScan.entryLoc "/w/a.zip" ⟨"nested.zip", true⟩)) ∈
        (ModelScan.scan_zip c5_cfg c5_fs "/w/a.zip" ⟨[], [], [], []⟩).errors :=
  ⟨by decide,
    (c5_archive_entries c5_cfg c5_fs "/w/a.zip"
      [⟨"good.bin", false⟩, ⟨"nested.zip", true⟩] ⟨[], [], [], []⟩
      (by decide) (by decide) (by decide) (by decide)
      ⟨"nested.zip", true⟩ (by decide)).2.2.2 (by decide) rfl⟩
